import Mathlib

/-!
Shallow embedding of `src/tools/schema_lint.py`, a one-shot consistency
checker for administrative-division YAML datasets, together with theorems
settling the frozen claims about it.

Modelling conventions:
- Parsed YAML documents are values of the inductive `Val`; `Val.vdate`
  carries a calendar date encoded as the natural number `y*10000+m*100+d`,
  an encoding that is order-isomorphic to `datetime.date` comparison.
  `date.min` is `00010101` and `date.max` is `99991231`.
- Python's exception-free paths become total functions; code paths on which
  the Python raises an uncaught exception (e.g. `AttributeError` from
  calling `.get` on a non-dict) are modelled with `Except String`, the
  error carrying the exception's description.
- Python's `list.sort` / `sorted` (a stable sort) is modelled with
  `List.insertionSort`, which is also stable, over the same key order.
- Error messages built with f-strings are modelled as the inductive `Err`
  carrying the interpolated data, with `render` producing the final string.
- A Python `dict` in insertion order is modelled as a `List` without
  duplicate keys; `dict.get` is `List.find?` / `List.lookup`.
-/

namespace SchemaLint

/-- Embedded YAML values, the possible results of `yaml.safe_load`. -/
inductive Val where
  | vnull
  | vbool (b : Bool)
  | vint (n : Int)
  | vstr (s : String)
  | vdate (d : Nat)
  | vlist (xs : List Val)
  | vmap (kvs : List (String × Val))

/-- Python `type(value).__name__` for the embedded values. -/
def typeName : Val → String
  | .vnull => "NoneType"
  | .vbool _ => "bool"
  | .vint _ => "int"
  | .vstr _ => "str"
  | .vdate _ => "date"
  | .vlist _ => "list"
  | .vmap _ => "dict"

/-- Python truthiness of an embedded value. -/
def truthy : Val → Bool
  | .vnull => false
  | .vbool b => b
  | .vint n => n != 0
  | .vstr s => s != ""
  | .vdate _ => true
  | .vlist xs => !xs.isEmpty
  | .vmap kvs => !kvs.isEmpty

/-- `block.get(key)` on a dict: the value, or `None` when the key is absent. -/
def dget (kvs : List (String × Val)) (k : String) : Val :=
  match kvs.lookup k with
  | some v => v
  | none => .vnull

/-- `date.min` in the YYYYMMDD encoding: 0001-01-01. -/
def dateMin : Nat := 10101

/-- `date.max` in the YYYYMMDD encoding: 9999-12-31. -/
def dateMax : Nat := 99991231

/-- Split a character list at every occurrence of `c` (Python `str.split`). -/
def splitOnChar (c : Char) : List Char → List (List Char)
  | [] => [[]]
  | x :: xs =>
    let r := splitOnChar c xs
    if x == c then [] :: r
    else
      match r with
      | h :: t => (x :: h) :: t
      | [] => [[x]]

/-- Numeric value of a digit string. -/
def natOfDigits (cs : List Char) : Nat :=
  cs.foldl (fun n c => n * 10 + (c.toNat - '0'.toNat)) 0

/-- Days in a month of a given (proleptic Gregorian) year. -/
def daysInMonth (y m : Nat) : Nat :=
  if m = 2 then (if (y % 4 = 0 ∧ y % 100 ≠ 0) ∨ y % 400 = 0 then 29 else 28)
  else if m = 4 ∨ m = 6 ∨ m = 9 ∨ m = 11 then 30 else 31

/-- Model of `datetime.date.fromisoformat` on canonical `YYYY-MM-DD`
strings: a valid calendar date in that shape yields its YYYYMMDD
encoding, anything else yields `none` (the Python `ValueError` branch). -/
def fromIso (s : String) : Option Nat :=
  match splitOnChar '-' s.data with
  | [ys, ms, ds] =>
    if ys.length = 4 ∧ ms.length = 2 ∧ ds.length = 2
        ∧ (ys ++ ms ++ ds).all Char.isDigit then
      let y := natOfDigits ys
      let m := natOfDigits ms
      let d := natOfDigits ds
      if 1 ≤ y ∧ 1 ≤ m ∧ m ≤ 12 ∧ 1 ≤ d ∧ d ≤ daysInMonth y m then
        some (y * 10000 + m * 100 + d)
      else none
    else none
  | _ => none

/-- The error list of the linter, as structured values carrying the data
interpolated into each f-string of the Python; `render` builds the text. -/
inductive Err where
  | parseFail (path msg : String)
  | missingId (path : String) (block : Val)
  | dupId (path divId origFile : String)
  | dateNotStr (ctx : String) (v : Val)
  | dateInvalid (ctx s : String)
  | parentBad (ctx : String) (v : Val)
  | relMissingId (ctx : String) (item : Val)
  | relBadItem (ctx : String) (item : Val)
  | relNotList (ctx tyName : String)
  | missingParent (file divId : String)
  | danglingParent (file divId pref : String)
  | invertedRange (file divId : String) (f t : Nat)
  | overlap (base file divId : String) (f lastTo : Nat)
  | unknownRef (file divId fieldName target : String)
  | mismatch (file divId fieldName target counterpart : String)

/-- The context string `f"{yaml_path} ({div_id})"`. -/
def ctxOf (path divId : String) : String := path ++ " (" ++ divId ++ ")"

/-- The context string `f"{source.file} ({source.id}) {field}"`. -/
def relCtx (path divId fieldName : String) : String :=
  ctxOf path divId ++ " " ++ fieldName

/-- `parse_date`: date value, ISO string, or null; anything else is an
error and normalizes to absent. Returns (value, errors appended). -/
def parse_date (v : Val) (ctx : String) : Option Nat × List Err :=
  match v with
  | .vnull => (none, [])
  | .vdate d => (some d, [])
  | .vstr s =>
    match fromIso s with
    | some d => (some d, [])
    | none => (none, [.dateInvalid ctx s])
  | other => (none, [.dateNotStr ctx other])

/-- `normalize_parent`: null passes through, booleans (YAML's reading of
bare NO/YES) are coerced back to the string tokens, strings pass through,
anything else is an error and normalizes to absent. -/
def normalize_parent (v : Val) (ctx : String) : Option String × List Err :=
  match v with
  | .vnull => (none, [])
  | .vbool b => (some (if b then "YES" else "NO"), [])
  | .vstr s => (some s, [])
  | other => (none, [.parentBad ctx other])

/-- One item of a relation list: a bare id string, a mapping with a string
`id` field, or an error. Returns (ids kept, errors appended). -/
def relItem (ctx : String) (item : Val) : List String × List Err :=
  match item with
  | .vstr s => ([s], [])
  | .vmap kvs =>
    match kvs.lookup "id" with
    | some (.vstr s) => ([s], [])
    | _ => ([], [.relMissingId ctx item])
  | _ => ([], [.relBadItem ctx item])

/-- `normalize_relation`: null is the empty list, a list is filtered
item-wise by `relItem`, anything else is a whole-field error and
normalizes to the empty list. -/
def normalize_relation (v : Val) (ctx : String) : List String × List Err :=
  match v with
  | .vnull => ([], [])
  | .vlist xs =>
    xs.foldl
      (fun acc item =>
        let r := relItem ctx item
        (acc.1 ++ r.1, acc.2 ++ r.2))
      ([], [])
  | other => ([], [.relNotList ctx (typeName other)])

/-- `div_id.rsplit(":", 1)[0]`: everything before the last colon, or the
whole identifier when it has no colon. -/
def baseIdOf (divId : String) : String :=
  let r := divId.data.reverse.dropWhile (fun c => c != ':')
  match r with
  | [] => divId
  | _ :: rest => String.mk rest.reverse

/-- One fully normalized division record. -/
structure Division where
  id : String
  file : String
  parent : Option String
  from_date : Option Nat
  to_date : Option Nat
  base_id : String
  raw : List (String × Val)

/-- Build the `Division` for a block whose id is the string `divId`,
together with the normalization errors in the order the Python appends
them: `from`, then `to`, then `parent`. -/
def buildDivision (path : String) (block : List (String × Val)) (divId : String) :
    Division × List Err :=
  let fr := parse_date (dget block "from") (ctxOf path divId)
  let toD := parse_date (dget block "to") (ctxOf path divId)
  let pr := normalize_parent (dget block "parent") (ctxOf path divId)
  ({ id := divId, file := path, parent := pr.1, from_date := fr.1,
     to_date := toD.1, base_id := baseIdOf divId, raw := block },
   fr.2 ++ toD.2 ++ pr.2)

/-- Process one division block of a file: missing string id is an error
and the block is skipped; a duplicate id is an error naming the original
file and the block is skipped; otherwise the division is appended. -/
def processBlock (path : String) (acc : List Division × List Err)
    (block : List (String × Val)) : List Division × List Err :=
  match dget block "id" with
  | .vstr divId =>
    match acc.1.find? (fun d => d.id == divId) with
    | some orig => (acc.1, acc.2 ++ [.dupId path divId orig.file])
    | none =>
      let r := buildDivision path block divId
      (acc.1 ++ [r.1], acc.2 ++ r.2)
  | _ => (acc.1, acc.2 ++ [.missingId path (.vmap block)])

/-- Process one file. A YAML parse failure is recorded and the file is
skipped. A falsy document is replaced by `{}` (the `or {}`). A truthy
non-dict document makes the Python call `.get` on a non-dict and raise;
likewise a truthy non-list `divisions` value or a non-dict block raises
inside the loop. Those uncaught exceptions are the `Except.error` cases. -/
def processFile (acc : List Division × List Err)
    (file : String × Except String Val) :
    Except String (List Division × List Err) :=
  match file.2 with
  | .error msg => .ok (acc.1, acc.2 ++ [.parseFail file.1 msg])
  | .ok v =>
    let data := if truthy v then v else .vmap []
    match data with
    | .vmap m =>
      let dv0 := match m.lookup "divisions" with
                 | some x => x
                 | none => .vlist []
      let dv := if truthy dv0 then dv0 else .vlist []
      match dv with
      | .vlist blocks =>
        blocks.foldlM
          (fun a b =>
            match b with
            | .vmap bm => Except.ok (processBlock file.1 a bm)
            | other =>
              Except.error ("AttributeError: '" ++ typeName other
                ++ "' object has no attribute 'get'"))
          acc
      | .vstr _ =>
        .error "AttributeError: 'str' object has no attribute 'get'"
      | .vmap _ =>
        .error "AttributeError: 'str' object has no attribute 'get'"
      | other =>
        .error ("TypeError: '" ++ typeName other ++ "' object is not iterable")
    | other =>
      .error ("AttributeError: '" ++ typeName other
        ++ "' object has no attribute 'get'")

/-- Lexicographic path order used by `sorted(country_root.rglob(...))`,
stated on the underlying character lists. -/
def pathLe (a b : String × Except String Val) : Prop := a.1.data ≤ b.1.data

instance : DecidableRel pathLe := fun a b => by unfold pathLe; infer_instance

/-- The deterministic (lexicographic path order) file enumeration. -/
def sortFiles (files : List (String × Except String Val)) :
    List (String × Except String Val) :=
  files.insertionSort pathLe

/-- `collect_divisions`: scan the files in sorted path order, accumulating
the division model (in insertion order) and the structural errors; an
uncaught Python exception aborts the scan (`Except.error`). -/
def collect_divisions (files : List (String × Except String Val)) :
    Except String (List Division × List Err) :=
  (sortFiles files).foldlM processFile ([], [])

/-- `validate_parent_links`: per division, a missing `parent` is one
error; a parent that is neither the "NO" sentinel nor a known id is one
dangling error; otherwise nothing. -/
def validate_parent_links (divs : List Division) : List Err :=
  let validIds := divs.map (fun d => d.id)
  divs.flatMap (fun div =>
    match div.parent with
    | none => [.missingParent div.file div.id]
    | some p =>
      if p != "NO" && !(validIds.contains p) then
        [.danglingParent div.file div.id p]
      else [])

/-- The per-division inverted-range errors emitted while the grouping
loop of `validate_dates` runs. -/
def invertedErrs (divs : List Division) : List Err :=
  divs.flatMap (fun d =>
    match d.from_date, d.to_date with
    | some f, some t => if t < f then [.invertedRange d.file d.id f t] else []
    | _, _ => [])

/-- `groups.setdefault(base_id, []).append(div)` over the model: groups in
first-occurrence order of the base id, members in model order. -/
def groupsOf (divs : List Division) : List (String × List Division) :=
  divs.foldl
    (fun gs d =>
      if (gs.find? (fun g => g.1 == d.base_id)).isSome then
        gs.map (fun g => if g.1 == d.base_id then (g.1, g.2 ++ [d]) else g)
      else gs ++ [(d.base_id, [d])])
    []

/-- The sort key `(d.from_date or date.min, d.to_date or date.max)`. -/
def dateKey (d : Division) : Nat × Nat :=
  (d.from_date.getD dateMin, d.to_date.getD dateMax)

/-- Python tuple order on the sort keys. -/
def dateLe (a b : Division) : Prop :=
  (dateKey a).1 < (dateKey b).1
    ∨ ((dateKey a).1 = (dateKey b).1 ∧ (dateKey a).2 ≤ (dateKey b).2)

instance : DecidableRel dateLe := fun a b => by unfold dateLe; infer_instance

/-- One step of the overlap walk: report when the running `last_to` is set
and the division starts no later than it, then overwrite `last_to` with
the division's `to` date (or `date.max` when it has none). -/
def walkStep (base : String) (st : List Err × Option Nat) (div : Division) :
    List Err × Option Nat :=
  let es :=
    match st.2, div.from_date with
    | some lt, some f =>
      if f ≤ lt then [Err.overlap base div.file div.id f lt] else []
    | _, _ => []
  (st.1 ++ es, some (div.to_date.getD dateMax))

/-- The overlap errors of one `base_id` group: sort by `dateKey`, then
walk with `walkStep` starting from no `last_to`. -/
def groupErrs (base : String) (subset : List Division) : List Err :=
  ((subset.insertionSort dateLe).foldl (walkStep base) ([], none)).1

/-- `validate_dates`: the inverted-range errors (first loop), then the
per-group overlap errors (second loop). -/
def validate_dates (divs : List Division) : List Err :=
  invertedErrs divs ++ (groupsOf divs).flatMap (fun g => groupErrs g.1 g.2)

/-- `check_relation`: normalize the source's relation field (re-reading
`raw`), then per target id report an unknown id, or re-normalize the
target's counterpart field from `raw` and report a mismatch when the
reciprocal id is missing. -/
def check_relation (divs : List Division) (source : Division)
    (fieldName counterpart : String) : List Err :=
  let r := normalize_relation (dget source.raw fieldName)
    (relCtx source.file source.id fieldName)
  r.2 ++ r.1.flatMap (fun targetId =>
    match divs.find? (fun d => d.id == targetId) with
    | none => [Err.unknownRef source.file source.id fieldName targetId]
    | some target =>
      let o := normalize_relation (dget target.raw counterpart)
        (relCtx target.file target.id counterpart)
      o.2 ++
        (if o.1.contains source.id then []
         else [Err.mismatch source.file source.id fieldName targetId counterpart]))

/-- `validate_lineage`: per division, check `was` against `became`, then
`became` against `was`. -/
def validate_lineage (divs : List Division) : List Err :=
  divs.flatMap (fun d =>
    check_relation divs d "was" "became" ++ check_relation divs d "became" "was")

/-- Left-pad a numeral with zeros. -/
def padNum (width n : Nat) : String :=
  let s := toString n
  String.mk (List.replicate (width - s.length) '0') ++ s

/-- `str(date)` for the YYYYMMDD encoding: `YYYY-MM-DD`. -/
def dateStr (d : Nat) : String :=
  padNum 4 (d / 10000) ++ "-" ++ padNum 2 (d / 100 % 100) ++ "-" ++ padNum 2 (d % 100)

/-- Python `repr` of an embedded value (used by the `{...!r}` and
`{...}` interpolations of the error messages). -/
def pyRepr : Val → String
  | .vnull => "None"
  | .vbool b => if b then "True" else "False"
  | .vint n => toString n
  | .vstr s => "'" ++ s ++ "'"
  | .vdate d => "datetime.date(" ++ toString (d / 10000) ++ ", "
      ++ toString (d / 100 % 100) ++ ", " ++ toString (d % 100) ++ ")"
  | .vlist xs => "[" ++ String.intercalate ", " (xs.attach.map fun x => pyRepr x.1) ++ "]"
  | .vmap kvs => "\x7b" ++ String.intercalate ", "
      (kvs.attach.map fun kv => "'" ++ kv.1.1 ++ "': " ++ pyRepr kv.1.2) ++ "\x7d"
decreasing_by
  · have h1 := List.sizeOf_lt_of_mem x.2
    simp only [Val.vlist.sizeOf_spec]
    omega
  · have h1 := List.sizeOf_lt_of_mem kv.2
    obtain ⟨⟨k, v⟩, hk⟩ := kv
    simp only [Val.vmap.sizeOf_spec, Prod.mk.sizeOf_spec] at h1 ⊢
    omega

/-- The message text of each error, per the f-strings of the Python. -/
def render : Err → String
  | .parseFail path msg => path ++ ": failed to parse YAML: " ++ msg
  | .missingId path block => path ++ ": division missing string id: " ++ pyRepr block
  | .dupId path divId origFile =>
      path ++ ": duplicate division id '" ++ divId ++ "' also defined in " ++ origFile
  | .dateNotStr ctx v => ctx ++ ": expected ISO date string or null, got " ++ pyRepr v
  | .dateInvalid ctx s =>
      ctx ++ ": invalid date '" ++ s ++ "': Invalid isoformat string: " ++ "'" ++ s ++ "'"
  | .parentBad ctx v => ctx ++ ": parent must be string or null, got " ++ pyRepr v
  | .relMissingId ctx item =>
      ctx ++ ": relation dict missing string 'id' field: " ++ pyRepr item
  | .relBadItem ctx item => ctx ++ ": expected string or mapping with id, got " ++ pyRepr item
  | .relNotList ctx tyName => ctx ++ ": expected list, got " ++ tyName
  | .missingParent file divId => file ++ " (" ++ divId ++ "): missing parent reference"
  | .danglingParent file divId pref =>
      file ++ " (" ++ divId ++ "): parent '" ++ pref ++ "' not found in dataset"
  | .invertedRange file divId f t =>
      file ++ " (" ++ divId ++ "): from date " ++ dateStr f ++ " is after to date " ++ dateStr t
  | .overlap base file divId f lastTo =>
      "Timeline overlap for " ++ base ++ ": " ++ file ++ " (" ++ divId ++ ") starts "
        ++ dateStr f ++ " before previous ended " ++ dateStr lastTo
  | .unknownRef file divId fieldName target =>
      file ++ " (" ++ divId ++ "): " ++ fieldName ++ " references unknown id '" ++ target ++ "'"
  | .mismatch file divId fieldName target counterpart =>
      "Lineage mismatch: " ++ file ++ " (" ++ divId ++ ") " ++ fieldName ++ " -> "
        ++ target ++ " without reciprocal " ++ counterpart

/-- The success line `f"OK: {len(divisions)} divisions validated in {country_path}"`. -/
def okLine (n : Nat) (path : String) : String :=
  "OK: " ++ toString n ++ " divisions validated in " ++ path

/-- The observable outcome of one run: exit code, stdout lines, stderr lines. -/
structure MainResult where
  exitCode : Nat
  stdoutLines : List String
  stderrLines : List String

/-- `main`: exit 2 with one stderr line when the country directory is
missing; otherwise build the model, run the three passes, and exit 0 with
the confirmation line (no errors) or exit 1 with the header plus one
stderr line per error. An uncaught exception propagates. -/
def main (dirExists : Bool) (countryPath : String)
    (files : List (String × Except String Val)) : Except String MainResult :=
  if !dirExists then
    .ok ⟨2, [], ["Country directory not found: " ++ countryPath]⟩
  else
    match collect_divisions files with
    | .error e => .error e
    | .ok (divs, errs0) =>
      let errs := errs0 ++ validate_parent_links divs ++ validate_dates divs
        ++ validate_lineage divs
      if errs.isEmpty then
        .ok ⟨0, [okLine divs.length countryPath], []⟩
      else
        .ok ⟨1, [], "Schema lint found issues:" :: errs.map (fun e => " - " ++ render e)⟩


/-! ### Definitions supporting the claim statements -/

/-- Which division a parent-pass error is attributed to. -/
def parentErrAbout (divId : String) : Err → Bool
  | .missingParent _ i => i == divId
  | .danglingParent _ i _ => i == divId
  | _ => false

/-- The per-division body of `validate_parent_links`. -/
def parentCheckOne (validIds : List String) (div : Division) : List Err :=
  match div.parent with
  | none => [.missingParent div.file div.id]
  | some p =>
    if p != "NO" && !(validIds.contains p) then
      [.danglingParent div.file div.id p]
    else []

/-- Does an error report a malformed relation-list item? -/
def isRelItemErr : Err → Bool
  | .relMissingId _ _ => true
  | .relBadItem _ _ => true
  | _ => false

/-- Is an error a duplicate-id error? -/
def isDupErr : Err → Bool
  | .dupId _ _ _ => true
  | _ => false

/-! Concrete divisions for the temporal-overlap claims. `cx1`–`cx3` share
base id `X`: an open-ended first incarnation, then two disjoint later
ones. `cr1`/`cr2`/`cr2b` are the concrete case of the spec (base `R`). -/

def cx1 : Division := ⟨"X:1", "x.yaml", some "NO", some 20000101, none, "X", []⟩

def cx2 : Division := ⟨"X:2", "x.yaml", some "NO", some 20100101, some 20110101, "X", []⟩

def cx3 : Division := ⟨"X:3", "x.yaml", some "NO", some 20500101, some 20510101, "X", []⟩

def cr1 : Division := ⟨"R:1", "r1.yaml", some "NO", some 20000101, some 20051231, "R", []⟩

def cr2 : Division := ⟨"R:2", "r2.yaml", some "NO", some 20050601, none, "R", []⟩

def cr2b : Division := ⟨"R:2", "r2.yaml", some "NO", some 20060101, none, "R", []⟩

/-! Concrete divisions for the lineage claims. `cA.became = [B]`; `cB`'s
`was` list holds one malformed item (the integer 1). `cA2` is a second
division also referencing `B`. `e7A`/`e7B` are the spec's reciprocity
case, `e7Brec` its repaired variant. -/

def cA : Division := ⟨"A", "a.yaml", some "NO", none, none, "A",
  [("id", .vstr "A"), ("became", .vlist [.vstr "B"])]⟩

def cA2 : Division := ⟨"A2", "a2.yaml", some "NO", none, none, "A2",
  [("id", .vstr "A2"), ("became", .vlist [.vstr "B"])]⟩

def cB : Division := ⟨"B", "b.yaml", some "NO", none, none, "B",
  [("id", .vstr "B"), ("was", .vlist [.vint 1])]⟩

def e7A : Division := ⟨"A", "a.yaml", some "NO", none, none, "A",
  [("id", .vstr "A"), ("became", .vlist [.vstr "B"])]⟩

def e7B : Division := ⟨"B", "b.yaml", some "NO", none, none, "B",
  [("id", .vstr "B"), ("was", .vlist [])]⟩

def e7Brec : Division := ⟨"B", "b.yaml", some "NO", none, none, "B",
  [("id", .vstr "B"), ("was", .vlist [.vstr "A"])]⟩

/-- Witness division for the parent-link claim: dangling parent `Z`. -/
def wd5 : Division := ⟨"W", "w.yaml", some "Z", none, none, "W", []⟩

/-- Witness division for the boolean-parent claim: parent `YES`. -/
def wd10 : Division := ⟨"Y", "y.yaml", some "YES", none, none, "Y", []⟩

instance : IsTotal (String × Except String Val) pathLe :=
  ⟨fun a b => le_total a.1.data b.1.data⟩

instance : IsTrans (String × Except String Val) pathLe :=
  ⟨fun _ _ _ hab hbc => le_trans hab hbc⟩

/-! ### Helper lemmas -/

theorem validate_parent_links_eq (divs : List Division) :
    validate_parent_links divs = divs.flatMap (parentCheckOne (divs.map (fun d => d.id))) := rfl

theorem parentCheckOne_filter_self (ids : List String) (div : Division) :
    (parentCheckOne ids div).filter (parentErrAbout div.id) = parentCheckOne ids div := by
  cases hp : div.parent with
  | none => simp [parentCheckOne, hp, parentErrAbout]
  | some p =>
    simp only [parentCheckOne, hp]
    by_cases hc : (p != "NO" && !(ids.contains p)) = true
    · rw [if_pos hc]; simp [parentErrAbout]
    · rw [if_neg hc]; rfl

theorem parentCheckOne_filter_other (ids : List String) (div : Division) (divId : String)
    (hne : div.id ≠ divId) :
    (parentCheckOne ids div).filter (parentErrAbout divId) = [] := by
  cases hp : div.parent with
  | none => simp [parentCheckOne, hp, parentErrAbout, hne]
  | some p =>
    simp only [parentCheckOne, hp]
    by_cases hc : (p != "NO" && !(ids.contains p)) = true
    · rw [if_pos hc]; simp [parentErrAbout, hne]
    · rw [if_neg hc]; rfl

theorem parent_filter_aux (ids : List String) (l : List Division) (div : Division)
    (hmem : div ∈ l) (hnd : (l.map (fun d => d.id)).Nodup) :
    (l.flatMap fun a => (parentCheckOne ids a).filter (parentErrAbout div.id))
      = parentCheckOne ids div := by
  induction l with
  | nil => cases hmem
  | cons h t ih =>
    rw [List.map_cons, List.nodup_cons] at hnd
    rcases List.mem_cons.mp hmem with he | ht
    · subst he
      rw [List.flatMap_cons]
      have hrest : (t.flatMap fun a => (parentCheckOne ids a).filter (parentErrAbout div.id)) = [] := by
        apply List.flatMap_eq_nil_iff.mpr
        intro x hx
        exact parentCheckOne_filter_other ids x div.id
          (fun hEq => hnd.1 (hEq ▸ List.mem_map_of_mem (fun d => d.id) hx))
      rw [hrest, parentCheckOne_filter_self, List.append_nil]
    · rw [List.flatMap_cons, parentCheckOne_filter_other ids h div.id
        (fun hEq => hnd.1 (hEq ▸ List.mem_map_of_mem (fun d => d.id) ht)), List.nil_append]
      exact ih ht hnd.2

/-- Filtering the errors of the parent pass down to one division of the
model (ids distinct) leaves exactly that division's own contribution. -/
theorem parent_filter_eq (divs : List Division) (div : Division)
    (hmem : div ∈ divs) (hnd : (divs.map (fun d => d.id)).Nodup) :
    (validate_parent_links divs).filter (parentErrAbout div.id)
      = parentCheckOne (divs.map (fun d => d.id)) div := by
  rw [validate_parent_links_eq, List.filter_flatMap]
  exact parent_filter_aux _ divs div hmem hnd

/-- Errors present before a walk of the overlap loop survive the walk. -/
theorem foldl_walkStep_mem (base : String) (e : Err) (l : List Division) :
    ∀ st : List Err × Option Nat, e ∈ st.1 → e ∈ (l.foldl (walkStep base) st).1 := by
  induction l with
  | nil => intro st h; exact h
  | cons d t ih =>
    intro st h
    exact ih (walkStep base st d) (List.mem_append_left _ h)

/-! ### Claims -/

/-- C1, counterexample: with the group `X:1 [2000-01-01, ∞)`,
`X:2 [2010-01-01, 2011-01-01]`, `X:3 [2050-01-01, 2051-01-01]`, the
validator reports only `X:2`: `X:3` has a present `validFrom` and follows
a Division with absent `validTo`, yet is not reported, because the
running `last_to` is overwritten (not maxed) by `X:2`'s `validTo`. -/
theorem C1_counterexample :
    validate_dates [cx1, cx2, cx3] = [Err.overlap "X" "x.yaml" "X:2" 20100101 dateMax]
    ∧ cx1.to_date = none
    ∧ cx3.from_date = some 20500101
    ∧ (∀ e ∈ validate_dates [cx1, cx2, cx3], ∀ b fl f lt, e ≠ Err.overlap b fl "X:3" f lt)
    ∧ (walkStep "X" ([], some dateMax) cx2).2 ≠ some (max dateMax (cx2.to_date.getD dateMax)) := by
  refine ⟨rfl, rfl, rfl, ?_, by decide⟩
  intro e he b fl f lt
  have : e = Err.overlap "X" "x.yaml" "X:2" 20100101 dateMax := List.mem_singleton.mp he
  subst this
  simp

/-- C1, amended: after each Division is processed the running `last_to`
is overwritten with that Division's `validTo` (absent becoming the
open-ended sentinel `date.max`), and a Division with a present
`validFrom` processed immediately after a Division with absent `validTo`
is always reported as a timeline overlap against the sentinel. -/
theorem C1_amended (base : String) (st : List Err × Option Nat)
    (div1 div2 : Division) (rest : List Division) (f : Nat)
    (h1 : div1.to_date = none) (h2 : div2.from_date = some f) (hf : f ≤ dateMax) :
    (∀ (st2 : List Err × Option Nat) (div : Division),
        (walkStep base st2 div).2 = some (div.to_date.getD dateMax))
    ∧ Err.overlap base div2.file div2.id f dateMax
        ∈ (List.foldl (walkStep base) st (div1 :: div2 :: rest)).1 := by
  refine ⟨fun _ _ => rfl, ?_⟩
  rw [List.foldl_cons, List.foldl_cons]
  apply foldl_walkStep_mem
  show Err.overlap base div2.file div2.id f dateMax
    ∈ (walkStep base (walkStep base st div1) div2).1
  simp only [walkStep, h1, h2, Option.getD_none]
  rw [if_pos hf]
  exact List.mem_append_right _ (List.mem_singleton.mpr rfl)

/-- C1, witness for the amended theorem, at the concrete group of the
counterexample: the overlap for `X:2` against the sentinel is reported. -/
theorem C1_amended_witness :
    Err.overlap "X" "x.yaml" "X:2" 20100101 dateMax
      ∈ (List.foldl (walkStep "X") ([], none) [cx1, cx2]).1 :=
  (C1_amended "X" ([], none) cx1 cx2 [] 20100101 rfl rfl (by decide)).2

/-- C2: the loader is claimed never to throw, but a file whose YAML
parses to a truthy non-mapping top-level value (here the sequence `[1]`)
makes the Python call `.get` on a list, and the `AttributeError` escapes
`collect_divisions` — modelled as the `Except.error` outcome. -/
theorem C2_loader_crash :
    collect_divisions [("a.yaml", Except.ok (Val.vlist [Val.vint 1]))]
      = Except.error "AttributeError: 'list' object has no attribute 'get'" := rfl

/-- C5: for every Division of a model with distinct ids, the parent pass
reports exactly one missing-parent error when `parent` is absent, exactly
one dangling-parent error when it is present, differs from the `"NO"`
sentinel and equals no Division's id, and nothing otherwise. -/
theorem C5_parent_link_validator (divs : List Division) (div : Division)
    (hmem : div ∈ divs) (hnd : (divs.map (fun d => d.id)).Nodup) :
    (validate_parent_links divs).filter (parentErrAbout div.id)
      = match div.parent with
        | none => [Err.missingParent div.file div.id]
        | some p =>
          if p ≠ "NO" ∧ p ∉ divs.map (fun d => d.id) then
            [Err.danglingParent div.file div.id p]
          else [] := by
  rw [parent_filter_eq divs div hmem hnd]
  cases hp : div.parent with
  | none => simp [parentCheckOne, hp]
  | some p =>
    simp only [parentCheckOne, hp]
    by_cases h1 : p = "NO"
    · simp [h1]
    · by_cases h2 : p ∈ divs.map (fun d => d.id)
      · simp [h1, h2]
      · simp [h1, h2]

/-- C5, witness: a single division with dangling parent `Z` gets exactly
the one dangling-parent error. -/
theorem C5_witness :
    (validate_parent_links [wd5]).filter (parentErrAbout wd5.id)
      = [Err.danglingParent "w.yaml" "W" "Z"] := by
  have h := C5_parent_link_validator [wd5] wd5 (List.mem_singleton.mpr rfl) (by simp)
  simpa [wd5] using h

/-- C6: on the model `R:1 [2000-01-01, 2005-12-31]`,
`R:2 [2005-06-01, ∞)` the validator records exactly one timeline-overlap
error, for `R:2`; moving `R:2`'s start to `2006-01-01` removes it. -/
theorem C6_overlap_concrete :
    validate_dates [cr1, cr2] = [Err.overlap "R" "r2.yaml" "R:2" 20050601 20051231]
    ∧ validate_dates [cr1, cr2b] = [] := ⟨rfl, rfl⟩

/-- C8: exit 2 with a single stderr line and no validation when the
directory is missing; exit 0 with the `0 divisions` line on an empty
dataset; exit 0 with the confirmation line whenever the error list is
empty; exit 1 with a header plus one line per error otherwise. -/
theorem C8_reporter :
    (∀ (path : String) (files : List (String × Except String Val)),
        main false path files
          = Except.ok ⟨2, [], ["Country directory not found: " ++ path]⟩)
    ∧ (∀ path : String, main true path [] = Except.ok ⟨0, [okLine 0 path], []⟩)
    ∧ (∀ (path : String) (files : List (String × Except String Val))
          (divs : List Division) (errs0 : List Err),
        collect_divisions files = Except.ok (divs, errs0) →
        errs0 ++ validate_parent_links divs ++ validate_dates divs
            ++ validate_lineage divs = [] →
        main true path files = Except.ok ⟨0, [okLine divs.length path], []⟩)
    ∧ (∀ (path : String) (files : List (String × Except String Val))
          (divs : List Division) (errs0 : List Err),
        collect_divisions files = Except.ok (divs, errs0) →
        errs0 ++ validate_parent_links divs ++ validate_dates divs
            ++ validate_lineage divs ≠ [] →
        main true path files = Except.ok ⟨1, [],
          "Schema lint found issues:"
            :: (errs0 ++ validate_parent_links divs ++ validate_dates divs
                ++ validate_lineage divs).map (fun e => " - " ++ render e)⟩) := by
  refine ⟨fun _ _ => rfl, fun _ => rfl, ?_, ?_⟩
  · intro path files divs errs0 hc he
    simp only [main, Bool.not_true, Bool.false_eq_true, if_false, hc, he]
    rfl
  · intro path files divs errs0 hc hne
    have hx : (errs0 ++ validate_parent_links divs ++ validate_dates divs
        ++ validate_lineage divs).isEmpty = false := by
      cases h : errs0 ++ validate_parent_links divs ++ validate_dates divs
          ++ validate_lineage divs with
      | nil => exact absurd h hne
      | cons a t => rfl
    simp only [main, Bool.not_true, Bool.false_eq_true, if_false, hc, hx]

/-- C8, witness: a dataset with one division missing its parent yields
exit 1 with the header line and one error line. -/
theorem C8_witness :
    main true "p" [("a.yaml", Except.ok (Val.vmap [("divisions",
        Val.vlist [Val.vmap [("id", Val.vstr "A")]])]))]
      = Except.ok ⟨1, [], ["Schema lint found issues:",
          " - a.yaml (A): missing parent reference"]⟩ := by
  have h := (C8_reporter.2.2.2) "p"
    [("a.yaml", Except.ok (Val.vmap [("divisions",
        Val.vlist [Val.vmap [("id", Val.vstr "A")]])]))]
    [⟨"A", "a.yaml", none, none, none, "A", [("id", Val.vstr "A")]⟩]
    [] rfl (by exact List.cons_ne_nil _ _)
  simpa using h

/-- C9: the tool is a pure function of its input (two runs agree), and
the file enumeration is sorted in lexicographic path order, so the error
list's order is reproducible. -/
theorem C9_deterministic :
    (∀ (dirExists : Bool) (path : String) (files : List (String × Except String Val)),
        main dirExists path files = main dirExists path files)
    ∧ (∀ files : List (String × Except String Val),
        ((sortFiles files).map Prod.fst).Pairwise (fun a b => a.data ≤ b.data)) := by
  refine ⟨fun _ _ _ => rfl, fun files => ?_⟩
  have h := List.sorted_insertionSort pathLe files
  exact List.pairwise_map.mpr h

/-- C10: a boolean-`true` source parent normalizes to the literal string
`"YES"` with no error, and the parent pass then treats `"YES"` as an
ordinary reference: dangling unless some division is named `YES`. -/
theorem C10_bool_parent (ctx : String) (divs : List Division) (div : Division)
    (hmem : div ∈ divs) (hnd : (divs.map (fun d => d.id)).Nodup)
    (hp : div.parent = some "YES") :
    normalize_parent (Val.vbool true) ctx = (some "YES", [])
    ∧ (validate_parent_links divs).filter (parentErrAbout div.id)
        = if "YES" ∈ divs.map (fun d => d.id) then []
          else [Err.danglingParent div.file div.id "YES"] := by
  refine ⟨rfl, ?_⟩
  rw [parent_filter_eq divs div hmem hnd]
  simp only [parentCheckOne, hp]
  by_cases h2 : "YES" ∈ divs.map (fun d => d.id)
  · simp [h2]
  · simp [h2]

/-- C10, witness: a single division with boolean-derived parent `YES`
and no division named `YES` gets exactly one dangling-parent error. -/
theorem C10_witness :
    normalize_parent (Val.vbool true) "c" = (some "YES", [])
    ∧ (validate_parent_links [wd10]).filter (parentErrAbout wd10.id)
        = [Err.danglingParent "y.yaml" "Y" "YES"] := by
  have h := C10_bool_parent "c" [wd10] wd10 (List.mem_singleton.mpr rfl) (by simp) rfl
  refine ⟨h.1, ?_⟩
  have h2 := h.2
  simpa [wd10] using h2

/-- A target's counterpart-field errors, emitted inside `check_relation`
when the target resolves, are part of the run's lineage errors. -/
theorem check_relation_target_errs (divs : List Division) (source target : Division)
    (tid fieldName cpt : String)
    (ht : tid ∈ (normalize_relation (dget source.raw fieldName)
        (relCtx source.file source.id fieldName)).1)
    (hf : divs.find? (fun d => d.id == tid) = some target) :
    ∀ e ∈ (normalize_relation (dget target.raw cpt)
        (relCtx target.file target.id cpt)).2,
      e ∈ check_relation divs source fieldName cpt := by
  intro e he
  unfold check_relation
  apply List.mem_append_right
  apply List.mem_flatMap.mpr
  refine ⟨tid, ht, ?_⟩
  simp only [hf]
  exact List.mem_append_left _ he

/-- Errors of either direction's `check_relation` for a division of the
model are part of the run's lineage errors. -/
theorem mem_validate_lineage_of_check (divs : List Division) (source : Division)
    (fieldName cpt : String) (e : Err) (hs : source ∈ divs)
    (hdir : (fieldName = "became" ∧ cpt = "was") ∨ (fieldName = "was" ∧ cpt = "became"))
    (he : e ∈ check_relation divs source fieldName cpt) : e ∈ validate_lineage divs := by
  apply List.mem_flatMap.mpr
  refine ⟨source, hs, ?_⟩
  rcases hdir with ⟨hfd, hcd⟩ | ⟨hfd, hcd⟩
  · subst hfd; subst hcd
    exact List.mem_append_right _ he
  · subst hfd; subst hcd
    exact List.mem_append_left _ he

/-- C3, counterexample: division `B`'s `was` list holds the malformed
item `1`; with `A.became = [B]` the run records the identical
malformed-item error twice — once normalizing `B` as a source and once
when the reciprocity check re-reads `B.was` as `A`'s target — so the
claimed "exactly one error per malformed field across the run" fails. -/
theorem C3_counterexample :
    validate_lineage [cA, cB]
      = [Err.relBadItem (relCtx "b.yaml" "B" "was") (Val.vint 1),
         Err.mismatch "a.yaml" "A" "became" "B" "was",
         Err.relBadItem (relCtx "b.yaml" "B" "was") (Val.vint 1)]
    ∧ (validate_lineage [cA, cB]).countP isRelItemErr = 2 := ⟨rfl, rfl⟩

/-- C3, amended: a malformed relation item is reported once per
normalization of its field — once when the containing Division is the
source and once more each time another Division's reciprocity check
resolves it as a target and re-reads the field from `raw`: the target's
normalization errors re-enter the run's error list, and with one
(resp. two) referencing Divisions the malformed item of `cB.was` is
reported two (resp. three) times. -/
theorem C3_amended (divs : List Division) (source target : Division) (tid : String)
    (hs : source ∈ divs)
    (ht : tid ∈ (normalize_relation (dget source.raw "became")
        (relCtx source.file source.id "became")).1)
    (hf : divs.find? (fun d => d.id == tid) = some target) :
    (∀ e ∈ (normalize_relation (dget target.raw "was")
        (relCtx target.file target.id "was")).2, e ∈ validate_lineage divs)
    ∧ (validate_lineage [cA, cB]).countP isRelItemErr = 2
    ∧ (validate_lineage [cA, cA2, cB]).countP isRelItemErr = 3 := by
  refine ⟨?_, rfl, rfl⟩
  intro e he
  exact mem_validate_lineage_of_check divs source "became" "was" e hs (Or.inl ⟨rfl, rfl⟩)
    (check_relation_target_errs divs source target tid "became" "was" ht hf e he)

/-- C3, witness: in the two-division model the malformed-item error of
`B.was` indeed appears in the run's error list. -/
theorem C3_amended_witness :
    Err.relBadItem (relCtx "b.yaml" "B" "was") (Val.vint 1) ∈ validate_lineage [cA, cB] :=
  (C3_amended [cA, cB] cA cB "B" (List.mem_cons_self _ _)
    (List.mem_singleton.mpr rfl) rfl).1 _ (List.mem_singleton.mpr rfl)

/-- C7: per direction (`became`/`was`, then swapped), a reference to an
id absent from the model yields an unknown-id error, and a resolved
target whose counterpart list misses the source's id yields a mismatch
error; concretely `A.became=[B]`, `B.was=[]` gives exactly the one
mismatch from the `became` direction, and `B.was=[A]` gives no error. -/
theorem C7_lineage (divs : List Division) (source : Division)
    (tid fieldName cpt : String) (hs : source ∈ divs)
    (hdir : (fieldName = "became" ∧ cpt = "was") ∨ (fieldName = "was" ∧ cpt = "became"))
    (ht : tid ∈ (normalize_relation (dget source.raw fieldName)
        (relCtx source.file source.id fieldName)).1) :
    (divs.find? (fun d => d.id == tid) = none →
        Err.unknownRef source.file source.id fieldName tid ∈ validate_lineage divs)
    ∧ (∀ target, divs.find? (fun d => d.id == tid) = some target →
        source.id ∉ (normalize_relation (dget target.raw cpt)
            (relCtx target.file target.id cpt)).1 →
        Err.mismatch source.file source.id fieldName tid cpt ∈ validate_lineage divs)
    ∧ validate_lineage [e7A, e7B] = [Err.mismatch "a.yaml" "A" "became" "B" "was"]
    ∧ validate_lineage [e7A, e7Brec] = [] := by
  refine ⟨?_, ?_, rfl, rfl⟩
  · intro hnone
    apply mem_validate_lineage_of_check divs source fieldName cpt _ hs hdir
    unfold check_relation
    apply List.mem_append_right
    apply List.mem_flatMap.mpr
    refine ⟨tid, ht, ?_⟩
    simp only [hnone]
    exact List.mem_singleton.mpr rfl
  · intro target hft hnot
    apply mem_validate_lineage_of_check divs source fieldName cpt _ hs hdir
    unfold check_relation
    apply List.mem_append_right
    apply List.mem_flatMap.mpr
    refine ⟨tid, ht, ?_⟩
    simp only [hft]
    apply List.mem_append_right
    have hc : (normalize_relation (dget target.raw cpt)
        (relCtx target.file target.id cpt)).1.contains source.id = false := by
      simp [hnot]
    simp only [hc]
    exact List.mem_singleton.mpr rfl

/-- C7, witness: the mismatch for `A.became = [B]`, `B.was = []` is in
the run's error list. -/
theorem C7_witness :
    Err.mismatch "a.yaml" "A" "became" "B" "was" ∈ validate_lineage [e7A, e7B] :=
  ((C7_lineage [e7A, e7B] e7A "B" "became" "was" (List.mem_cons_self _ _)
      (Or.inl ⟨rfl, rfl⟩) (List.mem_singleton.mpr rfl)).2.1) e7B rfl
    (List.not_mem_nil _)

theorem parse_date_noDup (v : Val) (ctx : String) :
    ((parse_date v ctx).2).filter isDupErr = [] := by
  cases v with
  | vstr s => cases h : fromIso s <;> simp [parse_date, h, isDupErr]
  | vnull => rfl
  | vbool b => rfl
  | vint n => rfl
  | vdate d => rfl
  | vlist xs => rfl
  | vmap kvs => rfl

theorem normalize_parent_noDup (v : Val) (ctx : String) :
    ((normalize_parent v ctx).2).filter isDupErr = [] := by
  cases v <;> rfl

theorem buildDivision_noDup (p : String) (b : List (String × Val)) (i : String) :
    ((buildDivision p b i).2).filter isDupErr = [] := by
  show ((parse_date (dget b "from") (ctxOf p i)).2 ++ (parse_date (dget b "to") (ctxOf p i)).2
      ++ (normalize_parent (dget b "parent") (ctxOf p i)).2).filter isDupErr = []
  rw [List.filter_append, List.filter_append, parse_date_noDup, parse_date_noDup,
    normalize_parent_noDup]
  rfl

theorem insertionSort_pair {α : Type} (r : α → α → Prop) [DecidableRel r]
    (a b : α) (h : r a b) : List.insertionSort r [a, b] = [a, b] := by
  simp [List.insertionSort, List.orderedInsert, h]

theorem processFile_one_block (path : String) (acc : List Division × List Err)
    (bm : List (String × Val)) :
    processFile acc (path, Except.ok (Val.vmap [("divisions", Val.vlist [Val.vmap bm])]))
      = Except.ok (processBlock path acc bm) := rfl

theorem processFile_two_blocks (path : String) (acc : List Division × List Err)
    (bm1 bm2 : List (String × Val)) :
    processFile acc (path, Except.ok (Val.vmap [("divisions",
        Val.vlist [Val.vmap bm1, Val.vmap bm2])]))
      = Except.ok (processBlock path (processBlock path acc bm1) bm2) := rfl

/-- C4: two records defining the same id `X` — whether in two files (scanned
in path order) or in one — produce exactly one duplicate-id error, whose
message names both the original and the offending file; the model keeps
only the first record, built entirely from the first block. -/
theorem C4_duplicate_ids (f1 f2 X : String) (bm1 bm2 : List (String × Val))
    (h1 : dget bm1 "id" = Val.vstr X) (h2 : dget bm2 "id" = Val.vstr X)
    (hf : f1.data ≤ f2.data) :
    (∃ errs1, collect_divisions
        [(f1, Except.ok (Val.vmap [("divisions", Val.vlist [Val.vmap bm1])])),
         (f2, Except.ok (Val.vmap [("divisions", Val.vlist [Val.vmap bm2])]))]
      = Except.ok ([(buildDivision f1 bm1 X).1], errs1 ++ [Err.dupId f2 X f1])
      ∧ (errs1 ++ [Err.dupId f2 X f1]).filter isDupErr = [Err.dupId f2 X f1])
    ∧ (∃ errs1, collect_divisions
        [(f1, Except.ok (Val.vmap [("divisions", Val.vlist [Val.vmap bm1, Val.vmap bm2])]))]
      = Except.ok ([(buildDivision f1 bm1 X).1], errs1 ++ [Err.dupId f1 X f1])
      ∧ (errs1 ++ [Err.dupId f1 X f1]).filter isDupErr = [Err.dupId f1 X f1])
    ∧ render (Err.dupId f2 X f1)
        = f2 ++ ": duplicate division id '" ++ X ++ "' also defined in " ++ f1 := by
  have hfil : ∀ p : String, ((buildDivision f1 bm1 X).2 ++ [Err.dupId p X f1]).filter isDupErr
      = [Err.dupId p X f1] := by
    intro p
    rw [List.filter_append, buildDivision_noDup]
    rfl
  have hbid : (buildDivision f1 bm1 X).1.id = X := rfl
  have hfind1 : ([(buildDivision f1 bm1 X).1]).find? (fun d => d.id == X)
      = some (buildDivision f1 bm1 X).1 :=
    List.find?_cons_of_pos _ (by rw [hbid]; simp)
  have hstep1 : processBlock f1 ([], []) bm1
      = ([(buildDivision f1 bm1 X).1], (buildDivision f1 bm1 X).2) := by
    unfold processBlock
    rw [h1]
    rfl
  have hstep2 : ∀ p : String, processBlock p
      ([(buildDivision f1 bm1 X).1], (buildDivision f1 bm1 X).2) bm2
      = ([(buildDivision f1 bm1 X).1],
         (buildDivision f1 bm1 X).2 ++ [Err.dupId p X f1]) := by
    intro p
    unfold processBlock
    rw [h2]
    simp only [hfind1]
    rfl
  refine ⟨⟨(buildDivision f1 bm1 X).2, ?_, hfil f2⟩,
          ⟨(buildDivision f1 bm1 X).2, ?_, hfil f1⟩, rfl⟩
  · unfold collect_divisions sortFiles
    have hfp : pathLe (f1, Except.ok (Val.vmap [("divisions", Val.vlist [Val.vmap bm1])]))
        (f2, Except.ok (Val.vmap [("divisions", Val.vlist [Val.vmap bm2])])) := hf
    rw [insertionSort_pair pathLe _ _ hfp, List.foldlM_cons, processFile_one_block, hstep1]
    show List.foldlM processFile
        ([(buildDivision f1 bm1 X).1], (buildDivision f1 bm1 X).2)
        [(f2, Except.ok (Val.vmap [("divisions", Val.vlist [Val.vmap bm2])]))] = _
    rw [List.foldlM_cons, processFile_one_block, hstep2 f2]
    rfl
  · unfold collect_divisions sortFiles
    rw [show List.insertionSort pathLe
        [(f1, Except.ok (Val.vmap [("divisions", Val.vlist [Val.vmap bm1, Val.vmap bm2])]))]
      = [(f1, Except.ok (Val.vmap [("divisions", Val.vlist [Val.vmap bm1, Val.vmap bm2])]))]
      from rfl]
    rw [List.foldlM_cons, processFile_two_blocks, hstep1, hstep2 f1]
    rfl

/-- C4, witness: two concrete one-record files both defining `X`. -/
theorem C4_witness :
    ∃ errs1, collect_divisions
        [("a.yaml", Except.ok (Val.vmap [("divisions", Val.vlist [Val.vmap [("id", Val.vstr "X")]])])),
         ("b.yaml", Except.ok (Val.vmap [("divisions", Val.vlist [Val.vmap [("id", Val.vstr "X")]])]))]
      = Except.ok ([(buildDivision "a.yaml" [("id", Val.vstr "X")] "X").1],
          errs1 ++ [Err.dupId "b.yaml" "X" "a.yaml"])
      ∧ (errs1 ++ [Err.dupId "b.yaml" "X" "a.yaml"]).filter isDupErr
          = [Err.dupId "b.yaml" "X" "a.yaml"] :=
  (C4_duplicate_ids "a.yaml" "b.yaml" "X" [("id", Val.vstr "X")] [("id", Val.vstr "X")]
    rfl rfl (by decide)).1

end SchemaLint
